import Mathlib

/-!
# Verification of the learnnet web routing layer

Shallow embedding of `src/web/mod.rs` (Rocket route handlers over a shared
`RwLock<Blockchain>`), together with the ledger/consensus operations the
handlers call.  The ledger core (`lib::blockchain`, `lib::consensus`) is not
part of the sources; the operations the handlers invoke are modelled from the
specification and marked `Modelled from the spec:` in their doc comments.

Modelling conventions:
* the `RwLock` write acquisition is a boolean parameter `lockOk` — `true`
  means `state.blockchain.write()` returned `Ok`, `false` means it errored;
* every handler is a function from the pre-request `Blockchain` state to the
  post-request state paired with the `Result<…, u32>` it returns, mirroring
  the `&mut Blockchain` threading of `blockchain_op`;
* `serde_json::to_string` success is abstracted by representing the encoded
  JSON string by the structured value it encodes; whether the encoder fails
  on a given call is a boolean parameter `encFails`, and `serialize` also
  reports how many encoding attempts it made;
* the `json!` objects built by the `/nodes/resolve` handler are association
  lists of `JVal` values.
-/

/-- A peer address as produced by `Url::parse` (the `url` crate is external;
a parsed, normalized URL is represented by its string form). -/
abbrev Url := String

/-- `lib::transaction::Transaction`: sender, recipient, amount. -/
structure Transaction where
  sender : String
  recipient : String
  amount : Nat
deriving DecidableEq, Repr

/-- `lib::blockchain::Block`: index, timestamp, transactions, proof,
previous_hash (the transaction set is kept as its ordered listing). -/
structure Block where
  index : Nat
  timestamp : Nat
  transactions : List Transaction
  proof : Nat
  previous_hash : String
deriving DecidableEq, Repr

/-- `lib::blockchain::Blockchain`: the chain, the pending-transaction pool,
the registered peer nodes and the proof-of-work difficulty. -/
structure Blockchain where
  chain : List Block
  pending : List Transaction
  nodes : List Url
  difficulty : Nat
deriving DecidableEq, Repr

namespace Blockchain

/-- Modelled from the spec: `Blockchain::new_transaction` (`lib::blockchain`
is not among the sources).  §4.3: inserts the transaction into the pending
pool (idempotent — resubmitting an identical transaction is a no-op) and
returns the index of the block that will contain it, i.e. the current chain
length. -/
def new_transaction (b : Blockchain) (t : Transaction) : Blockchain × Nat :=
  (if t ∈ b.pending then b else { b with pending := b.pending ++ [t] },
   b.chain.length)

/-- Modelled from the spec: `Blockchain::register_node` (`lib::blockchain`
is not among the sources).  §4.4: the registry de-duplicates and stores the
address; duplicate insert is a no-op. -/
def register_node (b : Blockchain) (u : Url) : Blockchain :=
  if u ∈ b.nodes then b else { b with nodes := b.nodes ++ [u] }

end Blockchain

namespace Consensus

/-- Modelled from the spec: `Consensus::resolve_conflicts` (`lib::consensus`
is not among the sources).  §4.5: for every address in the registry, fetch
that peer's chain (`fetcher` returns `none` for an unreachable peer, which is
skipped); among the fetched chains that are valid and strictly longer than
the local chain, choose the one of maximum length and replace the local
chain with it, returning `true`; if there is no such candidate, or the
maximum length is not attained by a unique candidate (ties keep the current
chain), return `false`.  Chain validity is the structural validator
`is_valid_chain`, abstracted as the parameter `isValid` since it depends on
the external hash function. -/
def resolve_conflicts (isValid : List Block → Bool)
    (fetcher : Url → Option (List Block)) (b : Blockchain) :
    Blockchain × Bool :=
  let fetched := b.nodes.filterMap fetcher
  let candidates := fetched.filter
    (fun c => isValid c && decide (b.chain.length < c.length))
  let maxLen := candidates.foldl (fun m c => max m c.length) 0
  match candidates.filter (fun c => c.length == maxLen) with
  | [w] => ({ b with chain := w }, true)
  | _ => (b, false)

end Consensus

/-- A JSON value appearing in the objects built by the handlers. -/
inductive JVal where
  | s : String → JVal
  | n : Nat → JVal
  | blocks : List Block → JVal
deriving DecidableEq, Repr

/-- A `json!` object: an association list of fields. -/
abbrev JObj := List (String × JVal)

/-- The `ChainResult` response struct of `src/web/mod.rs`. -/
structure ChainResult where
  chain : List Block
  length : Nat
deriving DecidableEq, Repr

/-- The `RegisterNodeResponse` response struct of `src/web/mod.rs`. -/
structure RegisterNodeResponse where
  message : String
  total_nodes : Nat
deriving DecidableEq, Repr

namespace Web

/-- `fn serialize<T>` of `src/web/mod.rs`: one call to
`serde_json::to_string`; on success the encoded string (represented by the
value it encodes) is returned, on failure the handler gets `Err(500)`.
`encFails` says whether this call to the encoder fails; the second component
counts the encoding attempts made (the source calls the encoder exactly
once — it never retries). -/
def serialize {α : Type} (encFails : Bool) (r : α) : Except Nat α × Nat :=
  if encFails then (Except.error 500, 1) else (Except.ok r, 1)

/-- `fn blockchain_op` of `src/web/mod.rs`: acquire the write lock on the
shared state; if acquisition succeeds run the closure on the blockchain
(mutations through `&mut` persist), otherwise return `Err(500)` without
running it. -/
def blockchain_op {α : Type} (lockOk : Bool) (st : Blockchain)
    (f : Blockchain → Blockchain × Except Nat α) :
    Blockchain × Except Nat α :=
  if lockOk then f st else (st, Except.error 500)

/-- `GET /mine` handler of `src/web/mod.rs`: the closure ignores the
blockchain and returns `Ok(format!("yo"))`. -/
def mine (lockOk : Bool) (st : Blockchain) : Blockchain × Except Nat String :=
  blockchain_op lockOk st (fun b => (b, Except.ok "yo"))

/-- `POST /transaction/new` handler of `src/web/mod.rs`: runs
`b.new_transaction(transaction)` under the lock and answers
`Ok(format!("Transaction added at block {}", index))`. -/
def new_transaction (t : Transaction) (lockOk : Bool) (st : Blockchain) :
    Blockchain × Except Nat String :=
  blockchain_op lockOk st (fun b =>
    let r := b.new_transaction t
    (r.1, Except.ok ("Transaction added at block " ++ toString r.2)))

/-- `GET /chain` handler of `src/web/mod.rs`: reads `b.chain()` under the
lock, builds `ChainResult { chain, length: chain.len() }` and serializes
it. -/
def chain (encFails : Bool) (lockOk : Bool) (st : Blockchain) :
    Blockchain × Except Nat ChainResult :=
  blockchain_op lockOk st (fun b =>
    let c := b.chain
    let response : ChainResult := ⟨c, c.length⟩
    (b, (serialize encFails response).1))

/-- The validation loop of the `POST /nodes/register` handler: parse every
entry in order, stopping with `none` at the first entry `Url::parse`
rejects (the handler then answers `Err(400)` before registering anything). -/
def parseAll (parse : String → Option Url) : List String → Option (List Url)
  | [] => some []
  | n :: rest =>
    match parse n with
    | some u => (parseAll parse rest).map (fun us => u :: us)
    | none => none

/-- `POST /nodes/register` handler of `src/web/mod.rs`: validate all URLs
(all or nothing), then register each, then serialize
`RegisterNodeResponse { message, total_nodes: b.nodes().len() }`.
`parse` abstracts the external `Url::parse`. -/
def register_node (parse : String → Option Url) (encFails : Bool)
    (lockOk : Bool) (node_list : List String) (st : Blockchain) :
    Blockchain × Except Nat RegisterNodeResponse :=
  blockchain_op lockOk st (fun b =>
    match parseAll parse node_list with
    | none => (b, Except.error 400)
    | some urls =>
      let b2 := urls.foldl Blockchain.register_node b
      let response : RegisterNodeResponse :=
        ⟨"New nodes have been added", b2.nodes.length⟩
      (b2, (serialize encFails response).1))

/-- `GET /nodes/resolve` handler of `src/web/mod.rs`: under the lock, run
`Consensus::resolve_conflicts(b)`; if it replaced the chain answer
`{"message": "Our chain was replaced", "new_chain": b.chain()}`, otherwise
`{"message": "Our chain is authoritative", "chain": b.chain()}` (in both
cases `b.chain()` is read after resolution). -/
def consensus (isValid : List Block → Bool)
    (fetcher : Url → Option (List Block)) (lockOk : Bool) (st : Blockchain) :
    Blockchain × Except Nat JObj :=
  blockchain_op lockOk st (fun b =>
    let r := Consensus.resolve_conflicts isValid fetcher b
    if r.2 then
      (r.1, Except.ok [("message", JVal.s "Our chain was replaced"),
                       ("new_chain", JVal.blocks r.1.chain)])
    else
      (r.1, Except.ok [("message", JVal.s "Our chain is authoritative"),
                       ("chain", JVal.blocks r.1.chain)]))

end Web

/-- Lock and network events of one request, used to reason about which
phases run while the exclusive lock is held. -/
inductive Event where
  | acquire : Event
  | release : Event
  | fetch : Url → Event
deriving DecidableEq, Repr

/-- Event trace of a `GET /nodes/resolve` request: `blockchain_op` acquires
the write lock, the closure runs `Consensus::resolve_conflicts` — whose
collect phase (modelled from the spec, §4.5 step 1) fetches each registered
peer — and the lock is released when the closure returns.  On lock failure
nothing runs. -/
def consensus_events (lockOk : Bool) (st : Blockchain) : List Event :=
  if lockOk then
    [Event.acquire] ++ st.nodes.map Event.fetch ++ [Event.release]
  else []

/-- Scans a trace tracking whether the lock is held; `true` iff every fetch
event occurs while the lock is NOT held. -/
def fetchesOutsideLockAux : Bool → List Event → Bool
  | _, [] => true
  | _, Event.acquire :: rest => fetchesOutsideLockAux true rest
  | _, Event.release :: rest => fetchesOutsideLockAux false rest
  | held, Event.fetch _ :: rest => !held && fetchesOutsideLockAux held rest

/-- `true` iff every fetch event of the trace occurs while the lock is not
held (the lock is initially free). -/
def fetchesOutsideLock (evs : List Event) : Bool :=
  fetchesOutsideLockAux false evs

/-- Scans a trace tracking whether the lock is held; `true` iff every fetch
event occurs while the lock IS held. -/
def fetchesInsideLockAux : Bool → List Event → Bool
  | _, [] => true
  | _, Event.acquire :: rest => fetchesInsideLockAux true rest
  | _, Event.release :: rest => fetchesInsideLockAux false rest
  | held, Event.fetch _ :: rest => held && fetchesInsideLockAux held rest

/-- `true` iff every fetch event of the trace occurs while the lock is
held. -/
def fetchesInsideLock (evs : List Event) : Bool :=
  fetchesInsideLockAux false evs

/-- A concrete ledger state: genesis-only chain, empty pool, no peers. -/
def st0 : Blockchain :=
  { chain := [{ index := 0, timestamp := 0, transactions := [],
                proof := 100, previous_hash := "1" }],
    pending := [],
    nodes := [],
    difficulty := 1 }

/-- A concrete ledger state with one registered peer. -/
def st1 : Blockchain :=
  { st0 with nodes := ["http://peer:5000/"] }

/-! ## Helper lemmas -/

theorem parseAll_eq_none (parse : String → Option Url) (ns : List String)
    (h : ∃ n ∈ ns, parse n = none) : Web.parseAll parse ns = none := by
  induction ns with
  | nil => simp at h
  | cons n rest ih =>
    obtain ⟨m, hm, hp⟩ := h
    rcases List.mem_cons.mp hm with rfl | hmem
    · simp [Web.parseAll, hp]
    · unfold Web.parseAll
      cases hpn : parse n with
      | none => rfl
      | some u => simp [ih ⟨m, hmem, hp⟩]

theorem mem_register_self (b : Blockchain) (u : Url) :
    u ∈ (b.register_node u).nodes := by
  unfold Blockchain.register_node
  by_cases h : u ∈ b.nodes <;> simp [h]

theorem mem_register_mono (b : Blockchain) (u v : Url)
    (h : v ∈ b.nodes) : v ∈ (b.register_node u).nodes := by
  unfold Blockchain.register_node
  by_cases hu : u ∈ b.nodes <;> simp [hu, h]

theorem mem_foldl_register_preserved (urls : List Url) (b : Blockchain)
    (v : Url) (h : v ∈ b.nodes) :
    v ∈ (urls.foldl Blockchain.register_node b).nodes := by
  induction urls generalizing b with
  | nil => simpa using h
  | cons u rest ih => exact ih _ (mem_register_mono b u v h)

theorem mem_foldl_register (urls : List Url) (b : Blockchain) (u : Url)
    (h : u ∈ urls) : u ∈ (urls.foldl Blockchain.register_node b).nodes := by
  induction urls generalizing b with
  | nil => simp at h
  | cons w rest ih =>
    rcases List.mem_cons.mp h with rfl | hmem
    · exact mem_foldl_register_preserved rest _ u (mem_register_self b u)
    · exact ih _ hmem

theorem fetchesInsideLockAux_fetches (us : List Url) :
    fetchesInsideLockAux true (us.map Event.fetch ++ [Event.release]) = true := by
  induction us with
  | nil => rfl
  | cons u rest ih => simpa [fetchesInsideLockAux] using ih

/-! ## Claims -/

/-- C1: the claim says `GET /mine` triggers `mine_next_block` and responds
with message, index, transactions, proof and previous_hash; the handler in
the source instead answers the placeholder string `"yo"` and leaves the
ledger completely unchanged — no block is mined or appended and the
`MineResult` response struct is never used.  This theorem evaluates the
handler's behaviour on every state (in particular the failing input `st0`). -/
theorem mine_handler_stub (st : Blockchain) :
    Web.mine true st = (st, Except.ok "yo") := rfl

/-- C2 (counterexample): at the concrete state `st0` (no registered peers,
so resolution keeps the local chain), the response of `GET /nodes/resolve`
is neither `{message: "chain replaced", new_chain}` nor
`{message: "chain authoritative", chain}` as the claim states: the actual
message strings are `"Our chain was replaced"` / `"Our chain is
authoritative"`. -/
theorem consensus_message_counterexample :
    (Web.consensus (fun _ => true) (fun _ => none) true st0).2 ≠
        Except.ok [("message", JVal.s "chain replaced"),
                   ("new_chain", JVal.blocks st0.chain)] ∧
    (Web.consensus (fun _ => true) (fun _ => none) true st0).2 ≠
        Except.ok [("message", JVal.s "chain authoritative"),
                   ("chain", JVal.blocks st0.chain)] := by
  have h : (Web.consensus (fun _ => true) (fun _ => none) true st0).2 =
      Except.ok [("message", JVal.s "Our chain is authoritative"),
                 ("chain", JVal.blocks st0.chain)] := rfl
  rw [h]
  constructor <;> simp

/-- C2 (amended): for every request to `GET /nodes/resolve` (lock acquired),
the response is `{message: "Our chain was replaced", new_chain: <chain>}`
when consensus resolution replaced the local chain, and
`{message: "Our chain is authoritative", chain: <chain>}` when the local
chain was kept; in both cases the chain in the response is the ledger's
chain after resolution, which is also the state the handler leaves behind. -/
theorem consensus_handler_spec (isValid : List Block → Bool)
    (fetcher : Url → Option (List Block)) (st : Blockchain) :
    Web.consensus isValid fetcher true st =
      ((Consensus.resolve_conflicts isValid fetcher st).1,
       if (Consensus.resolve_conflicts isValid fetcher st).2 then
         Except.ok [("message", JVal.s "Our chain was replaced"),
                    ("new_chain", JVal.blocks
                      (Consensus.resolve_conflicts isValid fetcher st).1.chain)]
       else
         Except.ok [("message", JVal.s "Our chain is authoritative"),
                    ("chain", JVal.blocks
                      (Consensus.resolve_conflicts isValid fetcher st).1.chain)]) := by
  unfold Web.consensus Web.blockchain_op
  cases h : (Consensus.resolve_conflicts isValid fetcher st).2 <;> simp [h]

/-- C3: for every batch submitted to `POST /nodes/register` (lock acquired,
encoder succeeding), if some entry fails `Url::parse` the handler answers
`Err(400)` and the whole state — in particular the node registry — is
unchanged; if every entry parses, every parsed address is registered and the
response is `RegisterNodeResponse {message, total_nodes}`. -/
theorem register_node_all_or_nothing (parse : String → Option Url)
    (ns : List String) (st : Blockchain) :
    ((∃ n ∈ ns, parse n = none) →
       Web.register_node parse false true ns st = (st, Except.error 400)) ∧
    (∀ urls, Web.parseAll parse ns = some urls →
       Web.register_node parse false true ns st =
         (urls.foldl Blockchain.register_node st,
          Except.ok ⟨"New nodes have been added",
                     (urls.foldl Blockchain.register_node st).nodes.length⟩) ∧
       ∀ u ∈ urls, u ∈ (urls.foldl Blockchain.register_node st).nodes) := by
  constructor
  · intro h
    simp [Web.register_node, Web.blockchain_op, parseAll_eq_none parse ns h]
  · intro urls h
    refine ⟨?_, fun u hu => mem_foldl_register urls st u hu⟩
    simp [Web.register_node, Web.blockchain_op, h, Web.serialize]

/-- C3 (witness): the spec's scenario — registering
`["http://x/", "not a url"]` where the second entry fails to parse rejects
the entire batch with 400 and leaves the state `st0` unchanged. -/
theorem register_node_all_or_nothing_witness :
    Web.register_node
        (fun s => if s = "http://x/" then some "http://x/" else none)
        false true ["http://x/", "not a url"] st0 =
      (st0, Except.error 400) :=
  (register_node_all_or_nothing _ _ _).1 ⟨"not a url", by simp, by simp⟩

/-- C5: for every request to `GET /chain` (lock acquired, encoder
succeeding), the handler returns the ledger's chain serialized as
`ChainResult {chain, length}` where `length` equals the number of blocks of
the returned chain, and the state is returned unchanged. -/
theorem chain_handler_spec (st : Blockchain) :
    ∃ r : ChainResult, Web.chain false true st = (st, Except.ok r) ∧
      r.chain = st.chain ∧ r.length = r.chain.length :=
  ⟨⟨st.chain, st.chain.length⟩, rfl, rfl, rfl⟩

/-- C6: for every transaction accepted by `POST /transaction/new` (lock
acquired), the handler invokes `Blockchain::new_transaction` and answers
`Ok("Transaction added at block <index>")` where `<index>` is exactly the
target block index that operation returned (per the spec, the current chain
length — the index of the block that will contain the transaction). -/
theorem new_transaction_handler_spec (t : Transaction) (st : Blockchain) :
    Web.new_transaction t true st =
      ((st.new_transaction t).1,
       Except.ok ("Transaction added at block " ++
         toString (st.new_transaction t).2)) ∧
    (st.new_transaction t).2 = st.chain.length :=
  ⟨rfl, rfl⟩

/-- C7: for every route operation, when the write lock on the shared
blockchain state cannot be acquired, `blockchain_op` answers `Err(500)` and
returns the state untouched; the result is the same for every closure `f`,
so the underlying ledger operation is never invoked. -/
theorem blockchain_op_lock_failure {α : Type} (st : Blockchain)
    (f : Blockchain → Blockchain × Except Nat α) :
    Web.blockchain_op false st f = (st, Except.error 500) := rfl

/-- C8: whenever JSON encoding of a response fails, `serialize` answers
`Err(500)` after exactly one encoding attempt (no retry), and a handler
using it — here `GET /chain` — surfaces that 500 to the caller. -/
theorem serialize_encoding_failure {α : Type} (r : α) :
    Web.serialize true r = ((Except.error 500 : Except Nat α), 1) ∧
    ∀ st : Blockchain, (Web.chain true true st).2 = Except.error 500 :=
  ⟨rfl, fun _ => rfl⟩

/-- C9: handling a `GET /chain` request leaves the blockchain state
unchanged, whether or not the exclusive lock was acquired and whether or not
encoding succeeded: the read-only chain inspection performs no mutation. -/
theorem chain_handler_preserves_state (encFails lockOk : Bool)
    (st : Blockchain) : (Web.chain encFails lockOk st).1 = st := by
  cases lockOk <;> cases encFails <;> rfl

/-- C10: in `POST /nodes/register`, registration happens before the response
is serialized: when every entry parses but encoding the success response
fails, the handler answers `Err(500)` yet the final state is the one with
every address of the batch registered (the mutation is not rolled back). -/
theorem register_node_serialize_failure (parse : String → Option Url)
    (ns : List String) (urls : List Url) (st : Blockchain)
    (h : Web.parseAll parse ns = some urls) :
    Web.register_node parse true true ns st =
      (urls.foldl Blockchain.register_node st, Except.error 500) ∧
    ∀ u ∈ urls, u ∈ (urls.foldl Blockchain.register_node st).nodes := by
  refine ⟨?_, fun u hu => mem_foldl_register urls st u hu⟩
  simp [Web.register_node, Web.blockchain_op, h, Web.serialize]

/-- C10 (witness): at the concrete batch `["http://x/"]` with a succeeding
parser and a failing encoder, the handler answers 500 and the address stays
registered. -/
theorem register_node_serialize_failure_witness :
    Web.register_node (fun s => some s) true true ["http://x/"] st0 =
      (["http://x/"].foldl Blockchain.register_node st0, Except.error 500) ∧
    "http://x/" ∈ (["http://x/"].foldl Blockchain.register_node st0).nodes :=
  ⟨(register_node_serialize_failure (fun s => some s) ["http://x/"]
      ["http://x/"] st0 rfl).1,
   (register_node_serialize_failure (fun s => some s) ["http://x/"]
      ["http://x/"] st0 rfl).2 _ (by simp)⟩

/-- C4 (counterexample): at the concrete state `st1` (one registered peer),
the event trace of a `GET /nodes/resolve` request does NOT keep the network
fetch outside the exclusive lock: the fetch of the peer happens between the
lock acquisition and its release. -/
theorem consensus_fetch_under_lock_counterexample :
    fetchesOutsideLock (consensus_events true st1) = false := rfl

/-- C4 (amended): during consensus resolution, the network fetch phase is
performed while HOLDING the exclusive lock: in the event trace of any
`GET /nodes/resolve` request, every peer fetch occurs between the write-lock
acquisition and its release (the whole resolution runs inside
`blockchain_op`'s closure). -/
theorem consensus_fetch_inside_lock (lockOk : Bool) (st : Blockchain) :
    fetchesInsideLock (consensus_events lockOk st) = true := by
  cases lockOk with
  | false => rfl
  | true =>
    show fetchesInsideLockAux false
      (Event.acquire :: (st.nodes.map Event.fetch ++ [Event.release])) = true
    simpa [fetchesInsideLockAux] using fetchesInsideLockAux_fetches st.nodes
